import Mathlib

/-!
Verification of the gridsync gateway layer (gridsync/tahoe.py) against its
natural-language specification.

Strings from the Python source are embedded as lists of characters
(`Str := List Char`), so that Python's `split` / `strip` / `startswith` /
membership primitives can be modelled by executable Lean functions and
reasoned about by structural induction.  Effectful methods of the `Tahoe`
class are embedded as pure functions that take the outcomes of their
external interactions (HTTP responses, spawned-command results, file
contents) as explicit parameters and return the new state together with a
trace of the externally visible actions they perform.
-/

/-- Character-list strings, the carrier for every Python `str` value. -/
abbrev Str := List Char

/-- Python `str.strip()`: remove leading and trailing whitespace. -/
def pyStrip (s : Str) : Str :=
  ((s.dropWhile Char.isWhitespace).reverse.dropWhile Char.isWhitespace).reverse

/-- Python `needle in hay` substring membership test. -/
def containsSub (needle : Str) : Str → Bool
  | [] => needle.isEmpty
  | c :: rest => needle.isPrefixOf (c :: rest) || containsSub needle rest

/-! ## Rootcap bootstrap (Tahoe.create_rootcap, tahoe.py lines 408-418)

The only durable state touched by `create_rootcap` is the
`private/rootcap` file and the in-memory `self.rootcap` attribute; the
daemon's `mkdir` HTTP call is represented by the capability string it
returns.  The filesystem actions performed are recorded in a trace so that
the presence or absence of permission changes is visible. -/

/-- Filesystem actions a gateway method can perform on its node directory. -/
inductive FsEvent where
  | write (path contents : Str)
  | chmod (path : Str) (mode : Nat)
deriving DecidableEq, Repr

/-- The slice of `Tahoe` state that `create_rootcap` reads and writes:
the contents of the `private/rootcap` file (`none` when the file does not
exist) and the cached `self.rootcap` attribute. -/
structure RootcapState where
  rootcap_file : Option Str
  rootcap : Option Str
deriving DecidableEq, Repr

/-- Result discriminator for the embedded `Except` results. -/
def isErr {ε α : Type} : Except ε α → Bool
  | Except.error _ => true
  | Except.ok _ => false

/-- Embedding of `Tahoe.create_rootcap`.  The source checks
`os.path.exists(self.rootcap_path)` and raises `OSError` if the file
exists; otherwise it sets `self.rootcap` to the capability returned by
`self.mkdir()`, opens the rootcap path with mode `'w'` and writes the
capability, and returns it.  `mkdirCap` is the capability produced by the
daemon's mkdir endpoint. -/
def create_rootcap (st : RootcapState) (mkdirCap : Str) :
    Except Str Str × RootcapState × List FsEvent :=
  if st.rootcap_file.isSome then
    (Except.error ("Rootcap file already exists".toList), st, [])
  else
    (Except.ok mkdirCap,
     { rootcap_file := some mkdirCap, rootcap := some mkdirCap },
     [FsEvent.write "private/rootcap".toList mkdirCap])

/-- Permission-changing events contained in a filesystem trace. -/
def tracePermEvents (tr : List FsEvent) : List FsEvent :=
  tr.filter (fun e => match e with | FsEvent.chmod _ _ => true | _ => false)

/-- C2: create_rootcap fails exactly when the rootcap file already exists,
and in that case leaves the file and cached value unmodified; starting
from a state with no rootcap file, a first call succeeds and persists the
new capability, and a second call on the resulting state fails without
changing the persisted file. -/
theorem c2_create_rootcap_guard :
    (∀ (st : RootcapState) (cap : Str),
      (isErr (create_rootcap st cap).1 = true ↔ st.rootcap_file.isSome = true) ∧
      (st.rootcap_file.isSome = true → (create_rootcap st cap).2.1 = st)) ∧
    (∀ (c1 c2 : Str),
      (create_rootcap ⟨none, none⟩ c1).1 = Except.ok c1 ∧
      (create_rootcap ⟨none, none⟩ c1).2.1.rootcap_file = some c1 ∧
      isErr (create_rootcap (create_rootcap ⟨none, none⟩ c1).2.1 c2).1 = true ∧
      (create_rootcap (create_rootcap ⟨none, none⟩ c1).2.1 c2).2.1.rootcap_file
        = some c1) := by
  constructor
  · intro st cap
    constructor
    · constructor
      · intro h
        by_contra hns
        simp only [create_rootcap, hns] at h
        simp [Bool.not_eq_true] at hns
        simp [hns, isErr] at h
      · intro h
        simp [create_rootcap, h, isErr]
    · intro h
      simp [create_rootcap, h]
  · intro c1 c2
    refine ⟨rfl, rfl, ?_, rfl⟩
    simp [create_rootcap, isErr]

/-- Witness for C2 at concrete capabilities. -/
theorem c2_create_rootcap_guard_witness :
    (create_rootcap ⟨some "URI:DIR2:abc".toList, none⟩ "URI:DIR2:def".toList).2.1
      = ⟨some "URI:DIR2:abc".toList, none⟩ :=
  (c2_create_rootcap_guard.1 ⟨some "URI:DIR2:abc".toList, none⟩
    "URI:DIR2:def".toList).2 (by decide)

/-- C8 counterexample: on a fresh state the filesystem trace of
create_rootcap is exactly one plain write of the capability to the rootcap
file; no permission-setting (chmod) action occurs, so the file is not
given owner-only permissions by this method. -/
theorem c8_counterexample :
    (create_rootcap ⟨none, none⟩ "URI:DIR2:abc".toList).2.2 =
      [FsEvent.write "private/rootcap".toList "URI:DIR2:abc".toList] ∧
    tracePermEvents (create_rootcap ⟨none, none⟩ "URI:DIR2:abc".toList).2.2
      = [] := by
  constructor
  · rfl
  · rfl

/-- C8 (amended): when no rootcap file exists, create_rootcap succeeds
with the capability produced by mkdir, persists it to the rootcap file by
a plain write (no permission change is performed), and caches it in the
in-memory rootcap attribute. -/
theorem c8_create_rootcap_fresh (st : RootcapState) (cap : Str)
    (h : st.rootcap_file = none) :
    (create_rootcap st cap).1 = Except.ok cap ∧
    (create_rootcap st cap).2.1.rootcap_file = some cap ∧
    (create_rootcap st cap).2.1.rootcap = some cap ∧
    (create_rootcap st cap).2.2
      = [FsEvent.write "private/rootcap".toList cap] ∧
    tracePermEvents (create_rootcap st cap).2.2 = [] := by
  simp [create_rootcap, h, tracePermEvents]

/-- Witness for C8 (amended) at a concrete capability. -/
theorem c8_create_rootcap_fresh_witness :
    (create_rootcap ⟨none, none⟩ "URI:DIR2:xyz".toList).1
      = Except.ok "URI:DIR2:xyz".toList :=
  (c8_create_rootcap_fresh ⟨none, none⟩ "URI:DIR2:xyz".toList rfl).1

/-! ## Alias table (Tahoe.get_aliases / Tahoe.get_alias, lines 140-164)

The aliases file is represented by its contents (`none` models the
IOError raised when the file is absent, which makes get_aliases return
None).  Python's `f.readlines()` followed by per-line processing is
modelled by splitting the contents on newline characters: the trailing
newline kept by readlines is removed by the `cap.strip()` applied to
every stored value, and a final empty line has no colon and is skipped,
so the resulting table is the same. -/

/-- Python `line.split(":", 1)`: split at the first colon, `none` models
the ValueError raised when no colon is present. -/
def splitFirstColon : Str → Option (Str × Str)
  | [] => none
  | c :: rest =>
    if c = ':' then some ([], rest)
    else (splitFirstColon rest).map (fun p => (c :: p.1, p.2))

/-- Python dict assignment `tbl[k] = v`: replace the value of an existing
key, otherwise append the new binding. -/
def updateAssoc (tbl : List (Str × Str)) (k v : Str) : List (Str × Str) :=
  if tbl.any (fun q => q.1 = k) then
    tbl.map (fun q => if q.1 = k then (k, v) else q)
  else tbl ++ [(k, v)]

/-- Embedding of `Tahoe.get_aliases`: skip lines starting with a hash,
split each remaining line at its first colon (lines that fail to split
are skipped individually), and store the stripped capability under the
colon-terminated name. -/
def get_aliases (fileContents : Option Str) : Option (List (Str × Str)) :=
  match fileContents with
  | none => none
  | some content =>
    some ((content.splitOn '\n').foldl
      (fun tbl line =>
        if "#".toList.isPrefixOf line then tbl
        else match splitFirstColon line with
          | some (name, cap) => updateAssoc tbl (name ++ [':']) (pyStrip cap)
          | none => tbl)
      [])

/-- Embedding of `Tahoe.get_alias`: append a colon to the requested name
unless it already ends with one, then return the capability stored under
that key; a missing aliases table (AttributeError on None) yields none. -/
def get_alias (aliases : Option (List (Str × Str))) (aliasName : Str) :
    Option Str :=
  let key := if [':'].isSuffixOf aliasName then aliasName
             else aliasName ++ [':']
  match aliases with
  | none => none
  | some tbl => tbl.lookup key

/-- C9: alias lookup is normalization-invariant: for an alias name that
does not end in a colon, get_alias returns the same result as for the
colon-terminated form of the same name, because the lookup key is always
colon-terminated before matching the parsed table. -/
theorem c9_get_alias_normalization (aliases : Option (List (Str × Str)))
    (a : Str) (h : [':'].isSuffixOf a = false) :
    get_alias aliases a = get_alias aliases (a ++ [':']) := by
  have hsuf : [':'].isSuffixOf (a ++ [':']) = true := by
    simp [List.isSuffixOf, List.isPrefixOf]
  simp [get_alias, h, hsuf]

/-- Witness for C9 on the alias table from the repository's test fixture. -/
theorem c9_get_alias_normalization_witness :
    get_alias (get_aliases (some "test_alias: test_cap".toList))
        "test_alias".toList
      = get_alias (get_aliases (some "test_alias: test_cap".toList))
        ("test_alias".toList ++ [':']) :=
  c9_get_alias_normalization (get_aliases (some "test_alias: test_cap".toList))
    "test_alias".toList (by decide)

/-! ## remove_magic_folder (Tahoe.remove_magic_folder, lines 570-580)

The folder registry is represented as an association list from folder
name to the optional subclient owning the folder (identified by its node
directory); the external actions of the method are recorded in a trace. -/

/-- External actions performed by remove_magic_folder. -/
inductive RemEv where
  | leaveCmd (args : List Str)
  | subclientStop (nodedir : Str)
  | rmtree (nodedir : Str)
deriving DecidableEq, Repr

/-- Python `del tbl[k]` on the registry. -/
def eraseKey (tbl : List (Str × Option Str)) (k : Str) :
    List (Str × Option Str) :=
  tbl.filter (fun q => q.1 ≠ k)

/-- Embedding of `Tahoe.remove_magic_folder`: when the name is absent
from the registry the whole body is skipped; otherwise the registry entry
is deleted, and either (subclient branch) a bare leave command is issued,
the subclient is stopped and its node directory removed, or (native
branch) only a named leave command is issued. -/
def remove_magic_folder (registry : List (Str × Option Str)) (name : Str) :
    List (Str × Option Str) × List RemEv :=
  match registry.lookup name with
  | none => (registry, [])
  | some clientOpt =>
    let registry2 := eraseKey registry name
    match clientOpt with
    | some nodedir =>
      (registry2,
       [RemEv.leaveCmd ["magic-folder".toList, "leave".toList],
        RemEv.subclientStop nodedir, RemEv.rmtree nodedir])
    | none =>
      (registry2,
       [RemEv.leaveCmd
          ["magic-folder".toList, "leave".toList, "-n".toList, name]])

theorem lookup_eraseKey (tbl : List (Str × Option Str)) (k : Str) :
    (eraseKey tbl k).lookup k = none := by
  induction tbl with
  | nil => rfl
  | cons q rest ih =>
    unfold eraseKey at ih ⊢
    rw [List.filter_cons]
    by_cases hq : q.1 = k
    · simp [hq, ih]
      exact fun a b _ hak hka => hak hka.symm
    · have hbeq : (k == q.1) = false := by
        rw [beq_eq_false_iff_ne]
        exact fun he => hq he.symm
      simp [hq, List.lookup, hbeq, ih]
      exact fun a b _ hak hka => hak hka.symm

/-- C10: remove_magic_folder with a name absent from the registry is a
no-op: the registry is unchanged and no leave command, subclient stop or
directory deletion is performed; with a present name the entry is erased
in both the subclient-owned and native branches, so the name no longer
resolves afterwards. -/
theorem c10_remove_magic_folder_frame (registry : List (Str × Option Str))
    (name : Str) :
    (registry.lookup name = none →
      remove_magic_folder registry name = (registry, [])) ∧
    (∀ cl, registry.lookup name = some cl →
      (remove_magic_folder registry name).1 = eraseKey registry name ∧
      ((remove_magic_folder registry name).1).lookup name = none) := by
  constructor
  · intro h
    simp [remove_magic_folder, h]
  · intro cl h
    cases cl with
    | none =>
      refine ⟨by simp [remove_magic_folder, h], ?_⟩
      simp only [remove_magic_folder, h]
      exact lookup_eraseKey registry name
    | some nodedir =>
      refine ⟨by simp [remove_magic_folder, h], ?_⟩
      simp only [remove_magic_folder, h]
      exact lookup_eraseKey registry name

/-- Witness for C10 on a concrete two-folder registry. -/
theorem c10_remove_magic_folder_frame_witness :
    remove_magic_folder
        [("Docs".toList, (none : Option Str))] "Music".toList
      = ([("Docs".toList, (none : Option Str))], []) ∧
    (remove_magic_folder
        [("Docs".toList, some "nodedir1".toList)] "Docs".toList).1.lookup
      "Docs".toList = none :=
  ⟨(c10_remove_magic_folder_frame [("Docs".toList, none)] "Music".toList).1
      (by decide),
   ((c10_remove_magic_folder_frame [("Docs".toList, some "nodedir1".toList)]
      "Docs".toList).2 (some "nodedir1".toList) (by decide)).2⟩

/-! ## stop (Tahoe.stop, lines 260-281; _stop_magic_folder_subclients,
lines 251-258)

The method is embedded as a trace of the externally visible actions it
performs, parameterized on the facts it branches on: whether the
twistd.pid file exists, whether the platform is win32, the recorded pid,
and whether the daemon stop command fails with TahoeCommandError (the
source swallows that failure).  The embedding returns a plain trace with
no error outcome: every path of the source completes without raising. -/

/-- Externally visible actions performed by stop. -/
inductive StopEv where
  | killPid (pid : Int)
  | removePidfile
  | stopCmd
  | stopSubclients
deriving DecidableEq, Repr

/-- Embedding of `Tahoe.stop`.  A missing pid file logs and returns at
once; on win32 the recorded pid is signalled and the pid file removed; on
other platforms the daemon stop command is issued, with a failing command
tolerated (stopCmdFails does not change the trace, mirroring the
swallowed TahoeCommandError); the two latter paths then stop every owned
subclient Gateway. -/
def stop (pidfileIsFile platformWin32 : Bool) (pid : Int)
    (stopCmdFails : Bool) : List StopEv :=
  if !pidfileIsFile then []
  else if platformWin32 then
    [StopEv.killPid pid, StopEv.removePidfile, StopEv.stopSubclients]
  else
    (if stopCmdFails then [StopEv.stopCmd] else [StopEv.stopCmd]) ++
      [StopEv.stopSubclients]

/-- C4 counterexample: with a missing pid file, stop completes normally
but performs no action at all, in particular it does not stop the owned
subclient Gateways. -/
theorem c4_counterexample :
    stop false false 7 false = [] ∧
    List.elem StopEv.stopSubclients (stop false false 7 false) = false := by
  constructor
  · rfl
  · rfl

/-- C4 (amended): a missing pid file is not an error, but on that path
stop returns immediately without stopping the owned subclients; on both
of the other completion paths (win32 signal path and daemon stop-command
path, whether or not the stop command fails) the owned subclients are
recursively stopped as the final action before the call returns. -/
theorem c4_stop_subclients (platformWin32 : Bool) (pid : Int)
    (stopCmdFails : Bool) :
    (stop false platformWin32 pid stopCmdFails = []) ∧
    (List.elem StopEv.stopSubclients
        (stop true platformWin32 pid stopCmdFails) = true ∧
      (stop true platformWin32 pid stopCmdFails).getLast?
        = some StopEv.stopSubclients) := by
  cases platformWin32 <;> cases stopCmdFails <;>
    exact ⟨rfl, rfl, rfl⟩

/-- Witness for C4 (amended) at a concrete pid. -/
theorem c4_stop_subclients_witness :
    (stop true true 4194305 false).getLast? = some StopEv.stopSubclients :=
  (c4_stop_subclients true 4194305 false).2.2

/-! ## link / unlink serialization (Tahoe.link lines 445-456,
Tahoe.unlink lines 458-469)

The DeferredLock owned by the Gateway and the HTTP request are modelled
by a small state-and-exception monad: the state carries whether the lock
is held and the trace of lock/request actions; the outcome of the
treq.post call (a response, or a raised connection error) is passed in as
a parameter.  The try/finally of the source is an explicit combinator. -/

/-- Lock and request actions in program order. -/
inductive LockEv where
  | acquire
  | request (url : Str)
  | release
deriving DecidableEq, Repr

/-- Lock state of one Gateway plus the recorded action trace. -/
structure LockState where
  lockHeld : Bool
  trace : List LockEv
deriving DecidableEq, Repr

/-- HTTP response as seen by link/unlink: status code and body. -/
structure HttpResp where
  code : Nat
  body : Str
deriving DecidableEq, Repr

/-- State-and-exception monad for the lock-protected operations. -/
def LockM (α : Type) := LockState → Except Str α × LockState

/-- Sequencing: propagate a raised exception, keeping the state. -/
def lockBind {α β : Type} (x : LockM α) (f : α → LockM β) : LockM β :=
  fun s =>
    match x s with
    | (Except.ok a, s2) => f a s2
    | (Except.error e, s2) => (Except.error e, s2)

/-- Python raise. -/
def lockRaise {α : Type} (e : Str) : LockM α := fun s => (Except.error e, s)

/-- Python return (falling off the end of the method). -/
def lockPure {α : Type} (a : α) : LockM α := fun s => (Except.ok a, s)

/-- self.lock.acquire(): the DeferredLock suspends while the lock is
held, so the operation proceeds only from a released lock; this model
takes the lock and records the action. -/
def lockAcquire : LockM Unit := fun s =>
  (Except.ok (), { lockHeld := true, trace := s.trace ++ [LockEv.acquire] })

/-- lock.release(). -/
def lockRelease : LockM Unit := fun s =>
  (Except.ok (), { lockHeld := false, trace := s.trace ++ [LockEv.release] })

/-- treq.post on the given url; the outcome (response or raised
connection error) is supplied by the environment. -/
def lockPost (url : Str) (outcome : Except Str HttpResp) : LockM HttpResp :=
  fun s => (outcome, { s with trace := s.trace ++ [LockEv.request url] })

/-- Python try/finally: run the body, then always run the finalizer, and
re-raise the body's exception (or deliver its value) afterwards. -/
def lockTryFinally {α : Type} (body : LockM α) (fin : LockM Unit) :
    LockM α := fun s =>
  match body s with
  | (r, s2) =>
    match fin s2 with
    | (Except.ok _, s3) => (r, s3)
    | (Except.error e, s3) => (Except.error e, s3)

/-- Url built by Tahoe.link. -/
def linkUrl (nodeurl dircap childname childcap : Str) : Str :=
  nodeurl ++ "uri/".toList ++ dircap ++ "/?t=uri&name=".toList ++
    childname ++ "&uri=".toList ++ childcap

/-- Url built by Tahoe.unlink. -/
def unlinkUrl (nodeurl dircap childname : Str) : Str :=
  nodeurl ++ "uri/".toList ++ dircap ++ "/?t=unlink&name=".toList ++
    childname

/-- Embedding of `Tahoe.link`: acquire the Gateway lock, post the link
request inside a try whose finally releases the lock, then raise
TahoeWebError (with the response body) when the status is not 200. -/
def link (nodeurl dircap childname childcap : Str)
    (postOutcome : Except Str HttpResp) : LockM Unit :=
  lockBind lockAcquire (fun _ =>
    lockBind
      (lockTryFinally
        (lockPost (linkUrl nodeurl dircap childname childcap) postOutcome)
        lockRelease)
      (fun resp =>
        if resp.code ≠ 200 then lockRaise resp.body else lockPure ()))

/-- Embedding of `Tahoe.unlink`, identical in structure to link with the
unlink request url. -/
def unlink (nodeurl dircap childname : Str)
    (postOutcome : Except Str HttpResp) : LockM Unit :=
  lockBind lockAcquire (fun _ =>
    lockBind
      (lockTryFinally
        (lockPost (unlinkUrl nodeurl dircap childname) postOutcome)
        lockRelease)
      (fun resp =>
        if resp.code ≠ 200 then lockRaise resp.body else lockPure ()))

/-- C5: for every outcome of the HTTP request (response of any status, or
a raised connection error), link and unlink acquire the Gateway's
mutual-exclusion lock, issue their single request while holding it, and
release it before finishing, so after the operation completes or fails
the lock is never left held and the recorded actions of one operation
form the uninterrupted block acquire-request-release. -/
theorem c5_link_unlink_lock (nodeurl dircap childname childcap : Str)
    (outcome : Except Str HttpResp) (s : LockState) :
    ((link nodeurl dircap childname childcap outcome s).2.lockHeld = false ∧
     (link nodeurl dircap childname childcap outcome s).2.trace =
       s.trace ++ [LockEv.acquire,
         LockEv.request (linkUrl nodeurl dircap childname childcap),
         LockEv.release]) ∧
    ((unlink nodeurl dircap childname outcome s).2.lockHeld = false ∧
     (unlink nodeurl dircap childname outcome s).2.trace =
       s.trace ++ [LockEv.acquire,
         LockEv.request (unlinkUrl nodeurl dircap childname),
         LockEv.release]) := by
  cases outcome with
  | error e =>
    refine ⟨⟨rfl, ?_⟩, ⟨rfl, ?_⟩⟩ <;>
      simp [link, unlink, lockBind, lockTryFinally, lockAcquire, lockRelease,
        lockPost]
  | ok resp =>
    by_cases hc : resp.code = 200
    · refine ⟨⟨?_, ?_⟩, ⟨?_, ?_⟩⟩ <;>
        simp [link, unlink, lockBind, lockTryFinally, lockAcquire,
          lockRelease, lockPost, lockPure, hc]
    · refine ⟨⟨?_, ?_⟩, ⟨?_, ?_⟩⟩ <;>
        simp [link, unlink, lockBind, lockTryFinally, lockAcquire,
          lockRelease, lockPost, lockRaise, hc]

/-- Witness for C5: a link and an unlink at concrete arguments, one
succeeding and one observing a 500 response, leave the lock released. -/
theorem c5_link_unlink_lock_witness :
    (link "http://127.0.0.1:1234/".toList "URI:DIR2:abc".toList
        "child".toList "URI:DIR2:def".toList
        (Except.ok ⟨200, [] ⟩) ⟨false, []⟩).2.lockHeld = false ∧
    (unlink "http://127.0.0.1:1234/".toList "URI:DIR2:abc".toList
        "child".toList
        (Except.ok ⟨500, "err".toList⟩) ⟨false, []⟩).2.lockHeld = false :=
  ⟨(c5_link_unlink_lock "http://127.0.0.1:1234/".toList
      "URI:DIR2:abc".toList "child".toList "URI:DIR2:def".toList
      (Except.ok ⟨200, []⟩) ⟨false, []⟩).1.1,
   (c5_link_unlink_lock "http://127.0.0.1:1234/".toList
      "URI:DIR2:abc".toList "child".toList "URI:DIR2:def".toList
      (Except.ok ⟨500, "err".toList⟩) ⟨false, []⟩).2.1⟩

/-! ## create_magic_folder (Tahoe.create_magic_folder, lines 518-544;
Tahoe._create_magic_folder_subclient, lines 471-516)

Both methods are embedded as trace-producing functions.  External
outcomes appear as parameters: `nativeResult` is the outcome of the
parent's native `magic-folder create -n` command; `ro` is the daemon's
get_json oracle restricted to the `ro_uri` field it returns for a
directory capability (the diminished read-only form); `aliasMagic` and
`dircapSub` are the subclient's magic alias and magic-folder dircap read
back from its node directory; `aliasNative` and `dircapNative` are the
parent's.  `name` is the basename of the (normalized) local path.  The
registration of the folder in self.magic_folders and the local makedirs
calls touch no state that these claims mention and are not recorded.
A `none` result models an uncaught ValueError from unpacking a join code
that does not split on a plus sign into exactly two capabilities. -/

/-- Actions visible outside create_magic_folder, in program order. -/
inductive Ev where
  | parentCmd (args : List Str)
  | subCreateClient
  | subStart
  | subAwaitReady
  | subCmd (args : List Str)
  | subStop
  | parentStop
  | parentStart
  | rootcapLink (childname childcap : Str)
deriving DecidableEq, Repr

/-- Embedding of `Tahoe._create_magic_folder_subclient` (the subclient
compatibility path).  After provisioning, starting and awaiting the
subclient: with a join code, the code is split on a plus sign into the
collective and personal capabilities; if the collective capability starts
with the read-write directory prefix URI:DIR2: the subclient gains a
magic alias for it and the code is rebuilt from the ro_uri returned by
get_json before the join command, and the method returns early; without a
join code the folder is created on the subclient and its collective and
personal capabilities are linked into the parent rootcap. -/
def create_magic_folder_subclient (ro : Str → Str)
    (aliasMagic dircapSub : Str) (name path : Str)
    (join_code : Option Str) : Option (List Ev) :=
  let pre := [Ev.subCreateClient, Ev.subStart, Ev.subAwaitReady]
  match join_code with
  | some jc =>
    match jc.splitOn '+' with
    | [collective_cap, personal_cap] =>
      if "URI:DIR2:".toList.isPrefixOf collective_cap then
        let collective_cap_ro := ro collective_cap
        let jc2 := collective_cap_ro ++ '+' :: personal_cap
        some (pre ++
          [Ev.subCmd ["add-alias".toList, "magic:".toList, collective_cap],
           Ev.subCmd ["magic-folder".toList, "join".toList, jc2, path],
           Ev.subStop, Ev.subStart])
      else
        some (pre ++
          [Ev.subCmd ["magic-folder".toList, "join".toList, jc, path],
           Ev.subStop, Ev.subStart])
    | _ => none
  | none =>
    some (pre ++
      [Ev.subCmd ["magic-folder".toList, "create".toList, "magic:".toList,
                  "admin".toList, path],
       Ev.subStop, Ev.subStart,
       Ev.rootcapLink (name ++ " (collective)".toList) aliasMagic,
       Ev.rootcapLink (name ++ " (personal)".toList) dircapSub])

/-- Embedding of `Tahoe.create_magic_folder`.  The native create command
is attempted first; when it fails with a message ending in
"not recognized" the subclient path is delegated to (and its early return
propagates); when it succeeds, or when it fails with any other
TahoeCommandError (which the source swallows), the parent is restarted
and the folder capabilities are linked into the parent rootcap. -/
def create_magic_folder (ro : Str → Str)
    (nativeResult : Except Str Unit)
    (aliasMagic dircapSub aliasNative dircapNative : Str)
    (name path : Str) (join_code : Option Str) : Option (List Ev) :=
  let nativeArgs := ["magic-folder".toList, "create".toList, "-n".toList,
                     name, name ++ [':'], "admin".toList, path]
  let finish := [Ev.parentStop, Ev.parentStart,
    Ev.rootcapLink (name ++ " (collective)".toList) aliasNative,
    Ev.rootcapLink (name ++ " (personal)".toList) dircapNative]
  match nativeResult with
  | Except.error err =>
    if "not recognized".toList.isSuffixOf err then
      (create_magic_folder_subclient ro aliasMagic dircapSub name path
          join_code).map (fun t => Ev.parentCmd nativeArgs :: t)
    else
      some (Ev.parentCmd nativeArgs :: finish)
  | Except.ok _ =>
    some (Ev.parentCmd nativeArgs :: finish)

/-- Splitting a two-capability join code recovers its two halves. -/
theorem splitOn_plus_pair {c p : Str} (hc : '+' ∉ c) (hp : '+' ∉ p) :
    (c ++ '+' :: p).splitOn '+' = [c, p] := by
  have h := List.splitOn_intercalate [c, p] '+'
    (by
      intro l hl
      simp only [List.mem_cons, List.mem_singleton, List.not_mem_nil,
        or_false] at hl
      rcases hl with rfl | rfl <;> assumption)
    (by simp)
  simpa [List.intercalate] using h

/-- C1: on the subclient path, when the join code is a concatenation of a
read-write collective capability (URI:DIR2: prefix) and a personal
capability, the code passed to the subclient's magic-folder join command
is rebuilt from the read-only (diminished) form of the collective
capability returned by get_json, so the collective half the subclient
joins with is the diminished form and not the original admin
capability. -/
theorem c1_join_code_diminished (ro : Str → Str)
    (aliasMagic dircapSub aliasNative dircapNative : Str)
    (name path c p err : Str)
    (hc : '+' ∉ c) (hp : '+' ∉ p)
    (hadmin : "URI:DIR2:".toList.isPrefixOf c = true)
    (herr : "not recognized".toList.isSuffixOf err = true) :
    create_magic_folder ro (Except.error err) aliasMagic dircapSub
        aliasNative dircapNative name path (some (c ++ '+' :: p)) =
      some [Ev.parentCmd ["magic-folder".toList, "create".toList,
              "-n".toList, name, name ++ [':'], "admin".toList, path],
            Ev.subCreateClient, Ev.subStart, Ev.subAwaitReady,
            Ev.subCmd ["add-alias".toList, "magic:".toList, c],
            Ev.subCmd ["magic-folder".toList, "join".toList,
              ro c ++ '+' :: p, path],
            Ev.subStop, Ev.subStart] := by
  simp only [create_magic_folder, create_magic_folder_subclient,
    splitOn_plus_pair hc hp, if_pos herr, if_pos hadmin, Option.map_some]
  rfl

/-- Witness for C1 at a concrete admin join code. -/
theorem c1_join_code_diminished_witness :
    create_magic_folder (fun c => "URI:DIR2-RO:".toList ++ c.drop 9)
        (Except.error "magic-folder create not recognized".toList)
        "aliasM".toList "dircapS".toList "aliasN".toList "dircapN".toList
        "MyFolder".toList "/sync/MyFolder".toList
        (some ("URI:DIR2:aaa".toList ++ '+' :: "URI:DIR2:bbb".toList)) =
      some [Ev.parentCmd ["magic-folder".toList, "create".toList,
              "-n".toList, "MyFolder".toList, "MyFolder".toList ++ [':'],
              "admin".toList, "/sync/MyFolder".toList],
            Ev.subCreateClient, Ev.subStart, Ev.subAwaitReady,
            Ev.subCmd ["add-alias".toList, "magic:".toList,
              "URI:DIR2:aaa".toList],
            Ev.subCmd ["magic-folder".toList, "join".toList,
              (fun c => "URI:DIR2-RO:".toList ++ c.drop 9)
                  "URI:DIR2:aaa".toList ++ '+' :: "URI:DIR2:bbb".toList,
              "/sync/MyFolder".toList],
            Ev.subStop, Ev.subStart] :=
  c1_join_code_diminished (fun c => "URI:DIR2-RO:".toList ++ c.drop 9)
    "aliasM".toList "dircapS".toList "aliasN".toList "dircapN".toList
    "MyFolder".toList "/sync/MyFolder".toList
    "URI:DIR2:aaa".toList "URI:DIR2:bbb".toList
    "magic-folder create not recognized".toList
    (by decide) (by decide) (by decide) (by decide)

/-- A concrete diminish oracle for example runs: get_json reporting the
read-only form of a read-write directory capability. -/
def roDiminish : Str → Str := fun c => "URI:DIR2-RO:".toList ++ c.drop 9

/-- Events that are links into the parent rootcap. -/
def isRootcapLink : Ev → Bool
  | Ev.rootcapLink _ _ => true
  | _ => false

/-- On the subclient path a supplied join code always returns before any
rootcap link is performed, whatever the shape of the code. -/
theorem subclient_join_no_links (ro : Str → Str)
    (aliasMagic dircapSub name path jc : Str) :
    ∀ tr, create_magic_folder_subclient ro aliasMagic dircapSub name path
        (some jc) = some tr →
      tr.filter isRootcapLink = [] := by
  intro tr htr
  simp only [create_magic_folder_subclient] at htr
  split at htr
  · split at htr <;> (cases htr; rfl)
  · exact Option.noConfusion htr

/-- C3 counterexample: a successful create_magic_folder call down the
subclient compatibility path with a join code establishes the folder but
links nothing into the parent rootcap: its trace contains no rootcap
link events at all, so no "(collective)" / "(personal)" child entries are
created. -/
theorem c3_counterexample :
    (create_magic_folder roDiminish
        (Except.error "magic-folder create not recognized".toList)
        "aliasM".toList "dircapS".toList "aliasN".toList "dircapN".toList
        "MyFolder".toList "/sync/MyFolder".toList
        (some ("URI:DIR2:aaa".toList ++ '+' :: "URI:DIR2:bbb".toList))).map
      (fun tr => tr.filter isRootcapLink) = some [] := by
  decide

/-- C3 (amended): the folder's collective and personal capabilities are
linked into the parent rootcap under the "(collective)" / "(personal)"
child names whenever the native path completes (native command succeeded
or failed with a non-"not recognized" error) and on the subclient path
without a join code; on the subclient path with a join code the method
returns early and no rootcap link is performed. -/
theorem c3_rootcap_links (ro : Str → Str)
    (aliasMagic dircapSub aliasNative dircapNative name path : Str) :
    (∀ jcOpt : Option Str,
      (create_magic_folder ro (Except.ok ()) aliasMagic dircapSub
          aliasNative dircapNative name path jcOpt).map
        (fun tr => tr.filter isRootcapLink)
      = some
          [Ev.rootcapLink (name ++ " (collective)".toList) aliasNative,
           Ev.rootcapLink (name ++ " (personal)".toList) dircapNative]) ∧
    (∀ (err : Str) (jcOpt : Option Str),
      "not recognized".toList.isSuffixOf err = false →
      (create_magic_folder ro (Except.error err) aliasMagic dircapSub
          aliasNative dircapNative name path jcOpt).map
        (fun tr => tr.filter isRootcapLink)
      = some
          [Ev.rootcapLink (name ++ " (collective)".toList) aliasNative,
           Ev.rootcapLink (name ++ " (personal)".toList) dircapNative]) ∧
    (∀ err : Str, "not recognized".toList.isSuffixOf err = true →
      (create_magic_folder ro (Except.error err) aliasMagic dircapSub
          aliasNative dircapNative name path none).map
        (fun tr => tr.filter isRootcapLink)
      = some
          [Ev.rootcapLink (name ++ " (collective)".toList) aliasMagic,
           Ev.rootcapLink (name ++ " (personal)".toList) dircapSub]) ∧
    (∀ (err jc : Str) (tr : List Ev),
      "not recognized".toList.isSuffixOf err = true →
      create_magic_folder ro (Except.error err) aliasMagic dircapSub
          aliasNative dircapNative name path (some jc) = some tr →
      tr.filter isRootcapLink = []) := by
  refine ⟨?_, ?_, ?_, ?_⟩
  · intro jcOpt
    rfl
  · intro err jcOpt herr
    simp only [create_magic_folder]
    rw [herr]
    rfl
  · intro err herr
    simp only [create_magic_folder]
    rw [herr]
    rfl
  · intro err jc tr herr htr
    simp only [create_magic_folder] at htr
    rw [herr] at htr
    rw [if_pos rfl] at htr
    rcases hsub : create_magic_folder_subclient ro aliasMagic dircapSub
        name path (some jc) with _ | tr2
    · rw [hsub] at htr
      exact Option.noConfusion htr
    · rw [hsub] at htr
      have h2 := subclient_join_no_links ro aliasMagic dircapSub name path
        jc tr2 hsub
      cases htr
      rw [List.filter_cons]
      simp [isRootcapLink, h2]

/-- Witness for C3 (amended): the subclient path without a join code at
concrete arguments links both child entries. -/
theorem c3_rootcap_links_witness :
    (create_magic_folder roDiminish
        (Except.error "magic-folder create not recognized".toList)
        "aliasM".toList "dircapS".toList "aliasN".toList "dircapN".toList
        "MyFolder".toList "/sync/MyFolder".toList none).map
      (fun tr => tr.filter isRootcapLink)
    = some
        [Ev.rootcapLink ("MyFolder".toList ++ " (collective)".toList)
           "aliasM".toList,
         Ev.rootcapLink ("MyFolder".toList ++ " (personal)".toList)
           "dircapS".toList] :=
  (c3_rootcap_links roDiminish "aliasM".toList "dircapS".toList
      "aliasN".toList "dircapN".toList "MyFolder".toList
      "/sync/MyFolder".toList).2.2.1
    "magic-folder create not recognized".toList (by decide)

/-! ## Grid status (Tahoe.get_grid_status, lines 332-360;
Tahoe._parse_welcome_page, lines 314-330)

The HTTP 200 response body either parses as JSON - represented
structurally by the optional server list the code reads from it - or
fails to parse, in which case the raw page text goes through the welcome
page pattern extraction.  The two regular expressions of the source have
the literal shape pre(.+?)post, modelled by an explicit leftmost-shortest
capture search. -/

/-- One entry of the servers list of the JSON status document. -/
structure Server where
  connection_status : Str
  available_space : Option Int
deriving DecidableEq, Repr

/-- The loop condition of get_grid_status: the server's
connection_status starts with "Connected". -/
def isConnectedStatus (server : Server) : Bool :=
  "Connected".toList.isPrefixOf server.connection_status

/-- Loop body of get_grid_status: count a server whose connection_status
starts with "Connected" and add its available_space when that value is
truthy (null and 0 are falsy in Python, and 0 contributes nothing
anyway). -/
def gridStatusStep (acc : Nat × Int) (server : Server) : Nat × Int :=
  if isConnectedStatus server then
    (acc.1 + 1,
     match server.available_space with
     | some n => if n = 0 then acc.2 else acc.2 + n
     | none => acc.2)
  else acc

/-- Connected-count and available-space accumulation of the source loop. -/
def grid_status_counts (servers : List Server) : Nat × Int :=
  servers.foldl gridStatusStep (0, 0)

/-- Embedding of the JSON branch of get_grid_status: a body without a
servers key yields the initial (0, 0, 0). -/
def get_grid_status_json (serversOpt : Option (List Server)) :
    Nat × Nat × Int :=
  match serversOpt with
  | some servers =>
    ((grid_status_counts servers).1, servers.length,
     (grid_status_counts servers).2)
  | none => (0, 0, 0)

/-- Shortest capture before the first occurrence of the literal pat,
together with the remainder after pat; none when pat never occurs. -/
def upToPat (pat : Str) : Str → Option (Str × Str)
  | [] => none
  | c :: rest =>
    if pat.isPrefixOf (c :: rest) then some ([], (c :: rest).drop pat.length)
    else
      match upToPat pat rest with
      | some (cap, rem) => some (c :: cap, rem)
      | none => none

/-- Model of re.search for a pattern of the literal shape pre(.+?)post:
the leftmost position where pre matches and a nonempty shortest capture
followed by post completes the match; yields the capture and the
remainder after post. -/
def searchCapture (pre post : Str) : Str → Option (Str × Str)
  | [] => none
  | c :: rest =>
    match (if pre.isPrefixOf (c :: rest) then
             match (c :: rest).drop pre.length with
             | [] => none
             | d :: drest =>
               match upToPat post drest with
               | some (cap, rem) => some (d :: cap, rem)
               | none => none
           else none) with
    | some r => some r
    | none => searchCapture pre post rest

/-- Model of re.findall for the same pattern shape: all non-overlapping
matches left to right.  Every match consumes at least one character, so a
fuel equal to the length of the scanned text suffices. -/
def findAllCaptures (pre post : Str) : Nat → Str → List Str
  | 0, _ => []
  | fuel + 1, s =>
    match searchCapture pre post s with
    | some (cap, rem) => cap :: findAllCaptures pre post fuel rem
    | none => []

/-- Python int() on the decimal text captured from the welcome page;
none models the ValueError raised on non-numeric text. -/
def parseDecimal (s : Str) : Option Nat :=
  match s with
  | [] => none
  | _ =>
    if s.all Char.isDigit then
      some (s.foldl (fun acc c => acc * 10 + (c.toNat - '0'.toNat)) 0)
    else none

/-- Modelled from the spec: dehumanized_size from module
gridsync/util.py, which is not included under src/.  Per the spec (the
grid-status section and its welcome-page example) it converts a
human-readable size string such as "1kB" to a byte count using powers of
1024, and raises ValueError (modelled by none) on a non-numeric cell such
as "N/A". -/
def dehumanized_size (s : Str) : Option Int :=
  let digits := s.takeWhile Char.isDigit
  let unit := s.dropWhile Char.isDigit
  match parseDecimal digits with
  | none => none
  | some n =>
    if unit = [] ∨ unit = "B".toList then some (n : Int)
    else if unit = "kB".toList then some ((n : Int) * 1024)
    else if unit = "MB".toList then some ((n : Int) * 1024 ^ 2)
    else if unit = "GB".toList then some ((n : Int) * 1024 ^ 3)
    else if unit = "TB".toList then some ((n : Int) * 1024 ^ 4)
    else none

/-- Embedding of `Tahoe._parse_welcome_page`: extract the connected and
known server counts from the two span patterns (0 when a pattern is
absent; none models an uncaught ValueError from int() on non-numeric
captured text), then sum the available-space cells, skipping cells whose
conversion raises ValueError. -/
def parse_welcome_page (html : Str) : Option (Nat × Nat × Int) := do
  let servers_connected ←
    match searchCapture "Connected to <span>".toList "</span>".toList html
        with
    | some (cap, _) => parseDecimal cap
    | none => some 0
  let servers_known ←
    match searchCapture "of <span>".toList
        "</span> known storage servers".toList html with
    | some (cap, _) => parseDecimal cap
    | none => some 0
  let cells := findAllCaptures "\x22service-available-space\x22>".toList
    "</td>".toList html.length html
  let available_space := cells.foldl
    (fun acc cell =>
      match dehumanized_size cell with
      | some size => acc + size
      | none => acc)
    (0 : Int)
  pure (servers_connected, servers_known, available_space)

/-- The HTTP 200 body of the status endpoint as the code observes it:
either structured JSON (with or without a servers list) or a legacy HTML
page on which JSON parsing fails. -/
inductive StatusBody where
  | jsonBody (servers : Option (List Server))
  | htmlBody (html : Str)

/-- Embedding of the 200-response handling of `Tahoe.get_grid_status`:
the JSON branch when the body parses, the welcome-page extraction when it
does not. -/
def get_grid_status_200 : StatusBody → Option (Nat × Nat × Int)
  | StatusBody.jsonBody servers => some (get_grid_status_json servers)
  | StatusBody.htmlBody html => parse_welcome_page html

theorem gridStatusStep_foldl (servers : List Server) :
    ∀ acc : Nat × Int,
      servers.foldl gridStatusStep acc =
        (acc.1 + servers.countP isConnectedStatus,
         acc.2 + ((servers.filter isConnectedStatus).map
            (fun s => s.available_space.getD 0)).sum) := by
  induction servers with
  | nil => intro acc; simp
  | cons s rest ih =>
    intro acc
    rw [List.foldl_cons, ih (gridStatusStep acc s)]
    cases hs : isConnectedStatus s
    · simp [gridStatusStep, hs, List.countP_cons, List.filter_cons,
        Prod.ext_iff]
    · rcases hspace : s.available_space with _ | n
      · simp [gridStatusStep, hs, hspace, List.countP_cons,
          List.filter_cons, Prod.ext_iff]
        try constructor
        all_goals omega
      · by_cases hn : n = 0
        · subst hn
          simp [gridStatusStep, hs, hspace, List.countP_cons,
            List.filter_cons, Prod.ext_iff]
          try constructor
          all_goals omega
        · simp [gridStatusStep, hs, hspace, hn, List.countP_cons,
            List.filter_cons, Prod.ext_iff]
          try constructor
          all_goals omega

/-- The three-server JSON example of the repository's test suite. -/
def exampleServers : List Server :=
  [⟨"Trying to connect".toList, none⟩,
   ⟨"Connected to tcp:node2:4567 via tcp".toList, some 1024⟩,
   ⟨"Connected to tcp:node3:5678 via tcp".toList, some 2048⟩]

/-- The welcome-page HTML example of the spec and the test suite. -/
def exampleHtml : Str :=
  ("\n        Connected to <span>3</span>of <span>10</span> known storage servers\n        <td class=\x22service-available-space\x22>N/A</td>\n        <td class=\x22service-available-space\x22>1kB</td>\n        <td class=\x22service-available-space\x22>1kB</td>\n    ").toList

set_option maxRecDepth 10000 in
/-- C6: on an HTTP 200 body that parses as JSON with a servers list,
get_grid_status returns the count of servers whose connection status
starts with "Connected", the total server count, and the sum of the
connected servers' available space with null space contributing zero; on
the three-server example this is (2, 3, 3072); on a body that fails to
parse as JSON, it returns the welcome-page pattern extraction, which on
the spec's HTML example yields (3, 10, 2048), skipping the non-numeric
"N/A" cell. -/
theorem c6_get_grid_status (servers : List Server) :
    (get_grid_status_200 (StatusBody.jsonBody (some servers)) =
      some (servers.countP isConnectedStatus, servers.length,
        ((servers.filter isConnectedStatus).map
          (fun s => s.available_space.getD 0)).sum)) ∧
    (get_grid_status_200 (StatusBody.jsonBody (some exampleServers)) =
      some (2, 3, 3072)) ∧
    (get_grid_status_200 (StatusBody.htmlBody exampleHtml) =
      some (3, 10, 2048)) := by
  refine ⟨?_, ?_, ?_⟩
  · have h := gridStatusStep_foldl servers (0, 0)
    simp only [get_grid_status_200, get_grid_status_json,
      grid_status_counts, h]
    simp
  · decide
  · decide

/-! ## CommandProtocol (lines 60-87) and Tahoe.command (lines 215-230)

The protocol object is a state machine driven by the reactor events
outReceived / errReceived (errReceived delegates to outReceived, so both
streams appear as chunks of one event kind), processExited (with a clean
flag: the reason is ProcessDone) and processEnded.  Its state is the
accumulated output buffer and the value delivered through the done
Deferred once it has fired: an errback carrying the stripped captured
output (TahoeCommandError), or a callback carrying either the process pid
(trigger match) or the captured output (clean exit). -/

/-- Deferred result and output buffer of a CommandProtocol. -/
structure ProtoState where
  result : Option (Except Str (Int ⊕ Str))
  output : Str
deriving Repr

/-- Reactor events delivered to the protocol. -/
inductive ProtoEvent where
  | outReceived (data : Str)
  | processExited (clean : Bool)
  | processEnded
deriving DecidableEq, Repr

/-- The lines scanned by outReceived: the decoded chunk stripped and
split on newlines. -/
def outLines (data : Str) : List Str := (pyStrip data).splitOn '\n'

/-- Per-line body of outReceived: when the Deferred has not fired, the
trigger is truthy (present and nonempty) and the trigger occurs in the
line, the Deferred fires with the pid. -/
def lineStep (trigger : Option Str) (pid : Int) (s : ProtoState)
    (line : Str) : ProtoState :=
  match s.result, trigger with
  | none, some (c :: ts) =>
    if containsSub (c :: ts) line then
      { s with result := some (Except.ok (Sum.inl pid)) }
    else s
  | _, _ => s

/-- Embedding of CommandProtocol.outReceived: append the chunk to the
output buffer, then scan its lines for the trigger. -/
def outReceivedStep (trigger : Option Str) (pid : Int) (st : ProtoState)
    (data : Str) : ProtoState :=
  (outLines data).foldl (lineStep trigger pid)
    { st with output := st.output ++ data }

/-- Embedding of the three callbacks of CommandProtocol: processEnded
fires the Deferred with the captured output if it has not fired;
processExited fires it as an errback with a TahoeCommandError carrying
the stripped captured output when the exit was abnormal and the Deferred
has not fired. -/
def protoStep (trigger : Option Str) (pid : Int) (st : ProtoState) :
    ProtoEvent → ProtoState
  | ProtoEvent.outReceived data => outReceivedStep trigger pid st data
  | ProtoEvent.processEnded =>
    match st.result with
    | none => { st with result := some (Except.ok (Sum.inr st.output)) }
    | some _ => st
  | ProtoEvent.processExited clean =>
    match st.result with
    | none =>
      if clean then st
      else { st with result := some (Except.error (pyStrip st.output)) }
    | some _ => st

/-- A run of the protocol from its freshly constructed state. -/
def protoRun (trigger : Option Str) (pid : Int)
    (events : List ProtoEvent) : ProtoState :=
  events.foldl (protoStep trigger pid) ⟨none, []⟩

/-- The truthy-trigger-in-line test of the source, as a function of the
trigger option. -/
def lineHit (trigger : Option Str) (line : Str) : Bool :=
  match trigger with
  | some (c :: ts) => containsSub (c :: ts) line
  | _ => false

/-- Some streamed line of some chunk contained the trigger. -/
def triggerMatched (trigger : Option Str) (chunks : List Str) : Bool :=
  chunks.any (fun data => (outLines data).any (lineHit trigger))

theorem lineStep_some (trigger : Option Str) (pid : Int) (s : ProtoState)
    (line : Str) (r : Except Str (Int ⊕ Str)) (h : s.result = some r) :
    lineStep trigger pid s line = s := by
  rcases trigger with _ | ⟨_ | ⟨c, ts⟩⟩ <;> simp [lineStep, h]

theorem lineStep_none (trigger : Option Str) (pid : Int) (s : ProtoState)
    (line : Str) (h : s.result = none) :
    lineStep trigger pid s line =
      (if lineHit trigger line then
        { s with result := some (Except.ok (Sum.inl pid)) }
      else s) := by
  rcases trigger with _ | ⟨_ | ⟨c, ts⟩⟩ <;> simp [lineStep, lineHit, h]

theorem lineFold_some (trigger : Option Str) (pid : Int)
    (lines : List Str) (s : ProtoState) (r : Except Str (Int ⊕ Str))
    (h : s.result = some r) :
    lines.foldl (lineStep trigger pid) s = s := by
  induction lines with
  | nil => rfl
  | cons line rest ih =>
    rw [List.foldl_cons, lineStep_some trigger pid s line r h]
    exact ih

theorem lineFold_none (trigger : Option Str) (pid : Int)
    (lines : List Str) :
    ∀ s : ProtoState, s.result = none →
      lines.foldl (lineStep trigger pid) s =
        ⟨if lines.any (lineHit trigger) then
           some (Except.ok (Sum.inl pid)) else none,
         s.output⟩ := by
  induction lines with
  | nil =>
    intro s h
    cases s
    simp at h
    simp [h]
  | cons line rest ih =>
    intro s h
    rw [List.foldl_cons, lineStep_none trigger pid s line h]
    by_cases hl : lineHit trigger line = true
    · rw [if_pos hl,
        lineFold_some trigger pid rest _ (Except.ok (Sum.inl pid)) rfl]
      simp [hl, List.any_cons]
    · have hl2 : lineHit trigger line = false := by
        revert hl
        cases lineHit trigger line <;> simp
      rw [if_neg (by simp [hl2]), ih s h]
      simp [hl2, List.any_cons]

theorem outStep_none (trigger : Option Str) (pid : Int) (st : ProtoState)
    (data : Str) (h : st.result = none) :
    outReceivedStep trigger pid st data =
      ⟨if (outLines data).any (lineHit trigger) then
         some (Except.ok (Sum.inl pid)) else none,
       st.output ++ data⟩ := by
  rw [outReceivedStep, lineFold_none trigger pid (outLines data)
    { st with output := st.output ++ data } (by simp [h])]

theorem outStep_some (trigger : Option Str) (pid : Int) (st : ProtoState)
    (data : Str) (r : Except Str (Int ⊕ Str)) (h : st.result = some r) :
    outReceivedStep trigger pid st data =
      ⟨some r, st.output ++ data⟩ := by
  rw [outReceivedStep, lineFold_some trigger pid (outLines data)
    { st with output := st.output ++ data } r (by simp [h])]
  cases st
  simp at h
  simp [h]

theorem outEvents_some (trigger : Option Str) (pid : Int)
    (chunks : List Str) :
    ∀ (st : ProtoState) (r : Except Str (Int ⊕ Str)),
      st.result = some r →
      (chunks.map ProtoEvent.outReceived).foldl (protoStep trigger pid) st
        = ⟨some r, chunks.foldl (· ++ ·) st.output⟩ := by
  induction chunks with
  | nil =>
    intro st r h
    cases st
    simp at h
    simp [h]
  | cons d rest ih =>
    intro st r h
    rw [List.map_cons, List.foldl_cons]
    show (rest.map ProtoEvent.outReceived).foldl (protoStep trigger pid)
      (outReceivedStep trigger pid st d) = _
    rw [outStep_some trigger pid st d r h, ih _ r rfl]
    rfl

theorem outEvents_none (trigger : Option Str) (pid : Int)
    (chunks : List Str) :
    ∀ st : ProtoState, st.result = none →
      (chunks.map ProtoEvent.outReceived).foldl (protoStep trigger pid) st
        = ⟨if triggerMatched trigger chunks then
             some (Except.ok (Sum.inl pid)) else none,
           chunks.foldl (· ++ ·) st.output⟩ := by
  induction chunks with
  | nil =>
    intro st h
    cases st
    simp at h
    simp [h, triggerMatched]
  | cons d rest ih =>
    intro st h
    rw [List.map_cons, List.foldl_cons]
    show (rest.map ProtoEvent.outReceived).foldl (protoStep trigger pid)
      (outReceivedStep trigger pid st d) = _
    rw [outStep_none trigger pid st d h]
    by_cases hd : (outLines d).any (lineHit trigger) = true
    · rw [if_pos hd,
        outEvents_some trigger pid rest _ (Except.ok (Sum.inl pid)) rfl]
      simp [triggerMatched, hd, List.any_cons]
    · have hd2 : (outLines d).any (lineHit trigger) = false := by
        revert hd
        cases (outLines d).any (lineHit trigger) <;> simp
      rw [if_neg (by simp [hd2]), ih _ rfl]
      simp [triggerMatched, hd2, List.any_cons]

/-- C7: a full protocol run (streamed chunks, then process exit, then
process end) delivers a TahoeCommandError carrying the stripped captured
combined output exactly when the exit was abnormal and no streamed line
contained the trigger; and once a line contained the trigger, the run
delivers the pid callback, so a later abnormal exit does not raise. -/
theorem c7_command_error_iff (trigger : Option Str) (pid : Int)
    (chunks : List Str) (clean : Bool) :
    ((protoRun trigger pid (chunks.map ProtoEvent.outReceived ++
        [ProtoEvent.processExited clean, ProtoEvent.processEnded])).result
      = some (Except.error (pyStrip (chunks.foldl (· ++ ·) [])))
      ↔ (clean = false ∧ triggerMatched trigger chunks = false)) ∧
    (triggerMatched trigger chunks = true →
      (protoRun trigger pid (chunks.map ProtoEvent.outReceived ++
        [ProtoEvent.processExited clean, ProtoEvent.processEnded])).result
      = some (Except.ok (Sum.inl pid))) := by
  rw [protoRun, List.foldl_append,
    outEvents_none trigger pid chunks ⟨none, []⟩ rfl]
  by_cases hm : triggerMatched trigger chunks = true
  · rw [if_pos hm]
    simp [protoStep, hm]
  · have hm2 : triggerMatched trigger chunks = false := by
      revert hm
      cases triggerMatched trigger chunks <;> simp
    rw [if_neg (by simp [hm2])]
    cases clean
    · simp [protoStep, hm2]
    · simp [protoStep, hm2]

/-- Witness for C7: a concrete run whose second chunk contains the
trigger line does not error despite an abnormal exit. -/
theorem c7_command_error_iff_witness :
    triggerMatched (some "client running".toList)
        ["starting...\n".toList, "client running\n".toList] = true ∧
    (protoRun (some "client running".toList) 12345
        (["starting...\n".toList, "client running\n".toList].map
          ProtoEvent.outReceived ++
         [ProtoEvent.processExited false, ProtoEvent.processEnded])).result
      = some (Except.ok (Sum.inl 12345)) :=
  ⟨by decide,
   (c7_command_error_iff (some "client running".toList) 12345
      ["starting...\n".toList, "client running\n".toList] false).2
     (by decide)⟩
